import Mathlib

/-!
Formal model of the LivingInsider scraper (scraper.js) and its job server
(server.js): the AI learning engine (price statistics, anomaly detection,
duplicate signatures, scroll recommendation, source selection), the quality
scoring system, the detail-worker row pipeline, the fixed output schema
normalization, and the in-memory job store with TTL and capacity eviction.

Modelling conventions:
* JS numbers are modelled as exact rationals (`ℚ`); all the arithmetic the
  theorems touch is exact in the source as well (sums, products, divisions,
  comparisons), except where noted in a doc comment.
* `null`/`undefined` fields are `Option` values; JS truthiness on strings is
  `≠ ""`, on numbers `≠ 0`.
* Mutation is modelled by explicit state passing; `Math.random()` by an
  explicit stream of pre-drawn values (`Rng`).
-/

/-- JS `Math.round`: round half toward positive infinity. -/
def jsRound (x : ℚ) : ℤ := ⌊x + 1 / 2⌋

/-- JS truthiness of a nullable string: `null` and `""` are falsy. -/
def jsTruthyStr (v : Option String) : Bool :=
  match v with
  | none => false
  | some s => s ≠ ""

/-- Association-list model of a JS `Map` lookup (`Map.get`). -/
def mapGet {α β : Type} [DecidableEq α] (m : List (α × β)) (k : α) : Option β :=
  (m.find? (fun e => e.1 = k)).map (fun e => e.2)

/-- The fields of a normalized listing row that the learning / scoring logic
reads or writes (a projection of the full 77-key schema built by
`parseDetail`; the remaining keys are carried opaquely and modelled by
`normalizeRow` below for the schema claims). -/
structure Listing where
  listing_id : Option String
  listing_url : Option String
  category : Option String
  deal_type : Option String
  listing_title : Option String
  price_value : Option ℚ
  price_psm : Option ℚ
  old_price_text : Option String
  usable_area_sqm : Option ℚ
  bedrooms : Option ℚ
  bathrooms : Option ℚ
  location_text : Option String
  contact_phone : Option String
  contact_email : Option String
  contact_line_url : Option String
  agent_name : Option String
  agent_verified : Bool
  images : Option String
  description_text : Option String
  location_score : ℚ
  quality_score : Option ℚ
  price_score : Option ℚ
  data_completeness : Option ℚ
  anomaly_flags : Option String
  value_score : ℚ
deriving DecidableEq

/-- A listing with every nullable field absent, zero dashboard scores. -/
def emptyListing : Listing :=
  { listing_id := none, listing_url := none, category := none, deal_type := none,
    listing_title := none, price_value := none, price_psm := none,
    old_price_text := none, usable_area_sqm := none, bedrooms := none,
    bathrooms := none, location_text := none, contact_phone := none,
    contact_email := none, contact_line_url := none, agent_name := none,
    agent_verified := false, images := none, description_text := none,
    location_score := 0, quality_score := none, price_score := none,
    data_completeness := none, anomaly_flags := none, value_score := 0 }

/-! ## QualityScorer (scraper.js `class QualityScorer`) -/

/-- One string field of the completeness checklist: filled iff not
`null`/`undefined`/`''` and not a string of length < 2. -/
def fieldFilledStr (v : Option String) : Bool :=
  match v with
  | none => false
  | some s => if s = "" then false else if s.length < 2 then false else true

/-- One numeric field of the completeness checklist: filled iff not
`null`/`undefined` (a number is never `''` and never has a string length). -/
def fieldFilledNum (v : Option ℚ) : Bool := v.isSome

/-- `QualityScorer.scoreDataCompleteness`: fraction of the fixed 12-field
checklist that is filled, on a 0-1 scale. -/
def scoreDataCompleteness (l : Listing) : ℚ :=
  let filled := [fieldFilledStr l.listing_title, fieldFilledStr l.category,
    fieldFilledStr l.deal_type, fieldFilledNum l.price_value,
    fieldFilledStr l.location_text, fieldFilledNum l.bedrooms,
    fieldFilledNum l.bathrooms, fieldFilledNum l.usable_area_sqm,
    fieldFilledStr l.contact_phone, fieldFilledStr l.agent_name,
    fieldFilledStr l.images, fieldFilledStr l.description_text]
  (((filled.filter (fun b => b)).length : ℚ)) / 12

/-- Strip the separators the phone regex ignores: whitespace and hyphens. -/
def stripPhoneSeparators (s : String) : String :=
  String.mk (s.data.filter (fun c => c ≠ ' ' && c ≠ '-'))

/-- The Thai phone pattern `/^0\d{8,9}$/` on the separator-stripped string. -/
def isThaiPhone (s : String) : Bool :=
  match s.data with
  | [] => false
  | c :: rest =>
    c = '0' && rest.all Char.isDigit && (rest.length = 8 || rest.length = 9)

/-- `QualityScorer.scoreContactQuality` (0-1 scale): additive credit for a
valid-looking phone, an email containing `@`, a LINE contact URL, a named
agent, and a verified agent. -/
def scoreContactQuality (l : Listing) : ℚ :=
  (if jsTruthyStr l.contact_phone
      && isThaiPhone (stripPhoneSeparators (l.contact_phone.getD ""))
   then (2 / 5 : ℚ) else 0)
  + (if jsTruthyStr l.contact_email && (l.contact_email.getD "").contains '@'
     then (1 / 5 : ℚ) else 0)
  + (if jsTruthyStr l.contact_line_url then (1 / 5 : ℚ) else 0)
  + (if jsTruthyStr l.agent_name && (l.agent_name.getD "").length > 2
     then (1 / 10 : ℚ) else 0)
  + (if l.agent_verified then (1 / 10 : ℚ) else 0)

/-- `QualityScorer.scoreImageQuality` (0-1 scale): linear in the number of
pipe-separated image URLs, capped at 10. -/
def scoreImageQuality (l : Listing) : ℚ :=
  match l.images with
  | none => 0
  | some s =>
    if s = "" then 0
    else
      let imgCount := ((s.splitOn "|").filter (fun t => t ≠ "")).length
      if imgCount = 0 then 0
      else if 10 ≤ imgCount then 1
      else (imgCount : ℚ) / 10

/-- `QualityScorer.scorePriceReliability` (0-1 scale): 0 without a positive
price; otherwise base 0.5 plus bonuses for a positive price-per-sqm, a price
in a sane absolute range, and a visible old price, capped at 1. -/
def scorePriceReliability (l : Listing) : ℚ :=
  match l.price_value with
  | none => 0
  | some p =>
    if p ≤ 0 then 0
    else
      let s :=
        (1 / 2 : ℚ)
        + (match l.price_psm with
           | none => 0
           | some m => if 0 < m then (1 / 5 : ℚ) else 0)
        + (if 100000 < p ∧ p < 1000000000 then (1 / 5 : ℚ) else 0)
        + (if jsTruthyStr l.old_price_text then (1 / 10 : ℚ) else 0)
      min s 1

/-- `QualityScorer.calculateQualityScore` (0-100): weighted sum of the four
sub-scores, 35% / 25% / 20% / 20%, rounded. -/
def calculateQualityScore (l : Listing) : ℚ :=
  ((jsRound ((scoreDataCompleteness l * (7 / 20)
      + scoreContactQuality l * (1 / 4)
      + scoreImageQuality l * (1 / 5)
      + scorePriceReliability l * (1 / 5)) * 100) : ℤ) : ℚ)

/-! ## AILearningEngine (scraper.js `class AILearningEngine`) -/

/-- Per-source performance record (`sourcePerformance` map values). -/
structure Perf where
  attempts : ℕ
  successes : ℕ
  avgQuality : ℚ
  avgLinksFound : ℚ
  totalLinks : ℚ
  score : ℚ
deriving DecidableEq

/-- Global price statistics; the JS initial `min: Infinity` sentinel is
modelled as `none`. -/
structure PriceStats where
  min : Option ℚ
  max : ℚ
  sum : ℚ
  count : ℕ
  values : List ℚ
deriving DecidableEq

/-- Per-category price statistics (`categoryStats` map values). -/
structure CatStats where
  min : Option ℚ
  max : ℚ
  sum : ℚ
  count : ℕ
deriving DecidableEq

/-- The AI learning engine state. The category map is keyed by the listing's
`category` field, which may be `null` (JS `Map` accepts `null` keys). -/
structure Engine where
  sourcePerformance : List (String × Perf)
  priceStats : PriceStats
  categoryStats : List (Option String × CatStats)
  locationStats : List (Option String × CatStats)
  scrollEffectiveness : List (ℚ × ℚ)
  duplicateSignatures : List String
deriving DecidableEq

/-- The freshly constructed engine (`new AILearningEngine()`). -/
def emptyEngine : Engine :=
  { sourcePerformance := [],
    priceStats := { min := none, max := 0, sum := 0, count := 0, values := [] },
    categoryStats := [], locationStats := [], scrollEffectiveness := [],
    duplicateSignatures := [] }

/-- `learnPrice` update of one `CatStats` record with a new price. -/
def catStatsAdd (cs : CatStats) (p : ℚ) : CatStats :=
  { min := some (match cs.min with | none => p | some m => min m p),
    max := max cs.max p, sum := cs.sum + p, count := cs.count + 1 }

/-- `learnPrice` update of the category map: initialize the entry if absent
(`Map.set` keeps an existing key's position), then fold in the price. -/
def updateCatStats (m : List (Option String × CatStats)) (k : Option String)
    (p : ℚ) : List (Option String × CatStats) :=
  if m.any (fun e => e.1 = k) then
    m.map (fun e => if e.1 = k then (k, catStatsAdd e.2 p) else e)
  else m ++ [(k, catStatsAdd { min := none, max := 0, sum := 0, count := 0 } p)]

/-- `AILearningEngine.learnPrice`: ignore missing or non-positive prices,
otherwise update the global and per-category statistics. -/
def learnPrice (e : Engine) (price : Option ℚ) (category : Option String) :
    Engine :=
  match price with
  | none => e
  | some p =>
    if p ≤ 0 then e
    else
      { e with
        priceStats :=
          { min := some (match e.priceStats.min with
                         | none => p
                         | some m => min m p),
            max := max e.priceStats.max p,
            sum := e.priceStats.sum + p,
            count := e.priceStats.count + 1,
            values := e.priceStats.values ++ [p] },
        categoryStats := updateCatStats e.categoryStats category p }

/-- `calculateStdDev` without the final square root: the population variance
(0 when fewer than 2 values). The source only ever compares
`zScore = |price - mean| / (stdDev ‖ 1)` against 3; since `stdDev = √variance`
and both sides are nonnegative, `zScore > 3` is equivalent to
`(price - mean)² > 9 * (variance ‖ 1)`, the form used by
`detectPriceAnomaly` below to stay in exact rational arithmetic. -/
def stdDevSq (values : List ℚ) (mean : ℚ) : ℚ :=
  if values.length < 2 then 0
  else (values.map (fun v => (v - mean) ^ 2)).sum / (values.length : ℚ)

/-- The global mean used by `detectPriceAnomaly`. -/
def globalMean (e : Engine) : ℚ := e.priceStats.sum / (e.priceStats.count : ℚ)

/-- The squared `stdDev ‖ 1` denominator of the z-score test. -/
def zDenomSq (e : Engine) : ℚ :=
  let v := stdDevSq e.priceStats.values (globalMean e)
  if v = 0 then 1 else v

/-- `AILearningEngine.detectPriceAnomaly`: `null` without a (truthy) price or
with fewer than 5 global samples; otherwise the global z-score / low-ratio
checks return first (`outlier_high` / `outlier_low`), and only when neither
fires is the category verdict (`suspiciously_high` wins over
`suspiciously_low`, the source's second `if` overwriting the first) returned. -/
def detectPriceAnomaly (e : Engine) (price : Option ℚ)
    (category : Option String) : Option String :=
  match price with
  | none => none
  | some p =>
    if p = 0 ∨ e.priceStats.count < 5 then none
    else
      let catAnomaly : Option String :=
        match category with
        | none => none
        | some c =>
          if c = "" then none
          else
            match mapGet e.categoryStats (some c) with
            | none => none
            | some cs =>
              if 3 ≤ cs.count then
                let catAvg := cs.sum / (cs.count : ℚ)
                if catAvg * 3 < p then some "suspiciously_high"
                else if p < catAvg * (3 / 10) then some "suspiciously_low"
                else none
              else none
      if 9 * zDenomSq e < (p - globalMean e) ^ 2 then some "outlier_high"
      else if p < globalMean e * (1 / 10) then some "outlier_low"
      else catAnomaly

/-- JS `toLowerCase`, character by character (the same as core
`String.toLower`, stated over the character list so that it reduces). -/
def jsToLowerCase (s : String) : String :=
  String.mk (s.data.map Char.toLower)

/-- `replace(/\s+/g, '')`: drop every whitespace character. -/
def stripWhitespaceAll (s : String) : String :=
  String.mk (s.data.filter (fun c => !c.isWhitespace))

/-- A string signature component after JS `filter(Boolean)`: dropped when
`null` or `""`. -/
def sigStr (v : Option String) : Option String :=
  match v with
  | none => none
  | some s => if s = "" then none else some s

/-- A numeric signature component after JS `filter(Boolean)`: dropped when
`null` or `0`, otherwise stringified (a value-determined rendering; the
claims only depend on equal values rendering equally). -/
def sigNum (v : Option ℚ) : Option String :=
  match v with
  | none => none
  | some q => if q = 0 then none else some (toString q)

/-- The truthy parts of `generateSignature`: normalized title, price, area,
bedrooms, location text — the listing URL and id never participate. -/
def signatureParts (l : Listing) : List String :=
  List.filterMap id
    [sigStr (l.listing_title.map (fun t => stripWhitespaceAll (jsToLowerCase t))),
     sigNum l.price_value,
     sigNum l.usable_area_sqm,
     sigNum l.bedrooms,
     sigStr l.location_text]

/-- `AILearningEngine.generateSignature`: the truthy parts joined by `|`. -/
def generateSignature (l : Listing) : String :=
  String.intercalate "|" (signatureParts l)

/-- `AILearningEngine.isDuplicate`: `true` iff the signature was already
seen; a first occurrence is recorded in the signature set, not flagged. -/
def isDuplicate (e : Engine) (l : Listing) : Bool × Engine :=
  let sig := generateSignature l
  if sig ∈ e.duplicateSignatures then (true, e)
  else (false, { e with duplicateSignatures := sig :: e.duplicateSignatures })

/-- The recommendation `recommendScrollRounds` computes from the
already-updated sample history: `currentRounds` while fewer than 3 samples
exist, otherwise adapted by the mean links over the most recent 3 samples
(`slice(-3)`), increased by 5 (capped at 35) when the mean is below 8,
decreased by 3 (floored at 15) when above 20. -/
def scrollDecision (hist : List (ℚ × ℚ)) (currentRounds : ℚ) : ℚ :=
  if hist.length < 3 then currentRounds
  else
    let recent := hist.drop (hist.length - 3)
    let avgLinks := (recent.map Prod.snd).sum / (recent.length : ℚ)
    if avgLinks < 8 then min (currentRounds + 5) 35
    else if 20 < avgLinks then max (currentRounds - 3) 15
    else currentRounds

/-- `AILearningEngine.recommendScrollRounds`: push the `{rounds, links}`
sample onto the effectiveness history, then return the recommendation
computed from the pushed history. -/
def recommendScrollRounds (e : Engine) (currentRounds linksFound : ℚ) :
    Engine × ℚ :=
  ({ e with scrollEffectiveness :=
      e.scrollEffectiveness ++ [(currentRounds, linksFound)] },
   scrollDecision (e.scrollEffectiveness ++ [(currentRounds, linksFound)])
     currentRounds)

/-- `QualityScorer.generateAnomalyFlags`: price anomaly plus the missing-data
and suspicious-pattern flags, comma-joined, `null` when empty. -/
def generateAnomalyFlags (l : Listing) (e : Engine) : Option String :=
  let flags :=
    (match detectPriceAnomaly e l.price_value l.category with
     | some a => ["price_" ++ a]
     | none => [])
    ++ (if !jsTruthyStr l.contact_phone && !jsTruthyStr l.contact_email then
          ["no_contact"] else [])
    ++ (if (match l.images with
            | none => true
            | some s => s = "" || s.length < 10) then ["no_images"] else [])
    ++ (if (match l.price_value with
            | none => true
            | some p => p = 0) then ["no_price"] else [])
    ++ (match l.listing_title with
        | none => []
        | some t => if t ≠ "" && t.length < 10 then ["short_title"] else [])
    ++ (match l.description_text with
        | none => []
        | some d =>
          if d ≠ "" && d.length < 50 then ["short_description"] else [])
  if flags = [] then none else some (String.intercalate "," flags)

/-! ## Detail worker pipeline (scraper.js `worker`) -/

/-- The run state the worker loop mutates: the engine, the accumulated rows,
and the `meta` counters the claims are about. -/
structure RunState where
  engine : Engine
  rows : List Listing
  duplicates_removed : ℕ
  total_parsed : ℕ
deriving DecidableEq

/-- The initial run state of `scrapeListings`. -/
def initialRunState : RunState :=
  { engine := emptyEngine, rows := [], duplicates_removed := 0,
    total_parsed := 0 }

/-- The worker's score-assignment block: quality, price (×100), completeness
and anomaly flags first, then `value_score` from the quality / price /
location scores just stored (all on the 0-100 scale at this point).
`generateAnomalyFlags` only reads fields the score assignments leave
untouched, so passing the unscored row is equivalent to the source's order. -/
def applyScores (e : Engine) (r : Listing) : Listing :=
  { r with
    quality_score := some (calculateQualityScore r),
    price_score := some (scorePriceReliability r * 100),
    data_completeness := some ((jsRound (scoreDataCompleteness r * 100) : ℤ) : ℚ),
    anomaly_flags := generateAnomalyFlags r e,
    value_score :=
      ((jsRound (calculateQualityScore r / 100 * 40
        + scorePriceReliability r * 100 / 100 * 30
        + r.location_score / 100 * 30) : ℤ) : ℚ) }

/-- One successfully parsed row through the worker loop body: duplicate check
(increment `duplicates_removed` and discard on a repeat), otherwise price
learning, score assignment, and append. -/
def processRow (s : RunState) (r : Listing) : RunState :=
  let du := isDuplicate s.engine r
  if du.1 then
    { s with engine := du.2, duplicates_removed := s.duplicates_removed + 1 }
  else
    let e2 := learnPrice du.2 r.price_value r.category
    let r2 := applyScores e2 r
    { s with engine := e2, rows := s.rows ++ [r2],
             total_parsed := s.total_parsed + 1 }

/-- The worker loop over a sequence of successfully parsed rows. -/
def processRows (s : RunState) : List Listing → RunState
  | [] => s
  | r :: rest => processRows (processRow s r) rest

/-! ## Search sources and adaptive selection (scraper.js) -/

/-- One entry of the `CATEGORIES` table. -/
structure CategorySeed where
  id : String
  name : String
  url_part : String
  weight : ℚ
deriving DecidableEq

/-- One entry of the `LOCATIONS_BANGKOK` table. -/
structure LocationSeed where
  id : String
  name : String
  weight : ℚ
deriving DecidableEq

/-- The fixed `CATEGORIES` table. -/
def CATEGORIES : List CategorySeed :=
  [{ id := "condo", name := "คอนโด", url_part := "คอนโด", weight := 1.2 },
   { id := "house", name := "บ้านเดี่ยว", url_part := "บ้าน", weight := 1.0 },
   { id := "townhouse", name := "ทาวน์เฮ้าส์", url_part := "ทาวน์เฮ้าส์", weight := 0.9 },
   { id := "land", name := "ที่ดิน", url_part := "ที่ดิน", weight := 0.8 },
   { id := "commercial", name := "อาคารพาณิชย์", url_part := "อาคารพาณิชย์", weight := 0.7 }]

/-- The fixed `LOCATIONS_BANGKOK` table. -/
def LOCATIONS_BANGKOK : List LocationSeed :=
  [{ id := "bangkok", name := "กรุงเทพมหานคร", weight := 1.3 },
   { id := "nonthaburi", name := "นนทบุรี", weight := 1.0 },
   { id := "pathumthani", name := "ปทุมธานี", weight := 0.9 },
   { id := "samutprakan", name := "สมุทรปราการ", weight := 0.9 },
   { id := "samutsakorn", name := "สมุทรสาคร", weight := 0.7 }]

/-- A search source; `aiScore` / `randScore` are the fields the two selection
branches spread onto a source (0 until assigned). -/
structure Source where
  id : String
  url : String
  category : String
  location : String
  name : String
  weight : ℚ
  aiScore : ℚ
  randScore : ℚ
deriving DecidableEq

/-- `generateSearchURLs`: the category × location product, composite weight
`cat.weight * loc.weight`. The `encodeURIComponent` URL-escaping of the
keyword is modelled as the identity embedding of the keyword; no claim
depends on the URL text. -/
def generateSearchURLs : List Source :=
  List.flatten (CATEGORIES.map (fun cat =>
    LOCATIONS_BANGKOK.map (fun loc =>
      { id := cat.id ++ "_" ++ loc.id,
        url := "https://www.livinginsider.com/searchword/all/Buysell/1/"
               ++ cat.url_part ++ " " ++ loc.name ++ ".html",
        category := cat.name,
        location := loc.name,
        name := cat.name ++ " ใน " ++ loc.name,
        weight := cat.weight * loc.weight,
        aiScore := 0, randScore := 0 })))

/-- An explicit stream of pre-drawn `Math.random()` values together with the
position of the next draw. -/
structure Rng where
  seq : ℕ → ℚ
  idx : ℕ

/-- One jittered comparison of `getBestSources`'s sort comparator: the
comparator draws a fresh jitter for each operand on every call
(`aiScore + Math.random() * 0.2`) and orders `a` before `b` iff
`scoreA > scoreB`. -/
def jitterCompareLess (a b : ℚ) (g : Rng) : Bool × Rng :=
  let ra := g.seq g.idx
  let rb := g.seq (g.idx + 1)
  (b + rb * (1 / 5) < a + ra * (1 / 5), { seq := g.seq, idx := g.idx + 2 })

/-- Insertion of one source into an already-ordered list under the jittered
comparator. JS `Array.prototype.sort` does not fix its comparison schedule;
any stable schedule is a faithful model, and the theorems proved about the
result (length, membership) are schedule-independent. -/
def jitterInsert (x : Source) : List Source → Rng → List Source × Rng
  | [], g => ([x], g)
  | y :: rest, g =>
    let c := jitterCompareLess x.aiScore y.aiScore g
    if c.1 then (x :: y :: rest, c.2)
    else
      let t := jitterInsert x rest c.2
      (y :: t.1, t.2)

/-- Stable insertion sort under the jittered comparator. -/
def jitterSort (l : List Source) (g : Rng) : List Source × Rng :=
  l.foldl (fun acc x =>
    let t := jitterInsert x acc.1 acc.2
    (t.1, t.2)) ([], g)

/-- `AILearningEngine.getBestSources`: spread each source with
`aiScore = learned score (0.5 when unseen)`, order under the jittered
comparator, return the first `count` (`slice(0, count)`). -/
def getBestSources (e : Engine) (allSources : List Source) (count : ℕ)
    (g : Rng) : List Source × Rng :=
  let scored := allSources.map (fun src =>
    { src with
      aiScore := ((mapGet e.sourcePerformance src.id).map Perf.score).getD
        (1 / 2) })
  let t := jitterSort scored g
  (t.1.take count, t.2)

/-- The first-run branch of `selectSmartSources`: one random draw per source,
`randScore = weight * random`. -/
def assignRandScores : List Source → Rng → List Source × Rng
  | [], g => ([], g)
  | s :: rest, g =>
    let r := g.seq g.idx
    let t := assignRandScores rest { seq := g.seq, idx := g.idx + 1 }
    ({ s with randScore := s.weight * r } :: t.1, t.2)

/-- Stable descending insertion by `randScore` (the comparator
`b.randScore - a.randScore` is consistent, so the sort is an ordinary stable
descending sort). -/
def randInsert (x : Source) : List Source → List Source
  | [] => [x]
  | y :: rest =>
    if y.randScore < x.randScore then x :: y :: rest else y :: randInsert x rest

/-- Stable descending sort by `randScore`. -/
def sortByRandScoreDesc (l : List Source) : List Source :=
  l.foldl (fun acc x => randInsert x acc) []

/-- JS `Math.ceil(t / 10)` on a natural count. -/
def jsCeilDiv10 (t : ℕ) : ℕ := (t + 9) / 10

/-- `selectSmartSources`: AI-learned selection of `ceil(targetCount/10)`
sources when at least one performance sample exists, otherwise
weighted-random selection of `max(ceil(targetCount/10), 3)`. -/
def selectSmartSources (targetCount : ℕ) (e : Engine) (g : Rng) :
    List Source × Rng :=
  if 0 < e.sourcePerformance.length then
    getBestSources e generateSearchURLs (jsCeilDiv10 targetCount) g
  else
    let t := assignRandScores generateSearchURLs g
    let sorted := sortByRandScoreDesc t.1
    let needed := max (jsCeilDiv10 targetCount) 3
    (sorted.take needed, t.2)

/-! ## Output schema normalization (scraper.js `SCHEMA_KEYS`, `finalRows`) -/

/-- A JS value stored in a dynamic row object (`undefined` is modelled as the
key being absent). -/
inductive JsValue where
  | vNull : JsValue
  | vNum : ℚ → JsValue
  | vStr : String → JsValue
  | vBool : Bool → JsValue
deriving DecidableEq

/-- The fixed output schema, transcribed key for key from `SCHEMA_KEYS`. -/
def SCHEMA_KEYS : List String :=
  ["listing_id", "listing_url", "category", "deal_type", "project_name",
   "listing_title", "price_text", "price_value", "price_psm",
   "old_price_text", "discount_percent", "usable_area_sqm", "floor",
   "bedrooms", "bathrooms", "parking", "furnishing", "direction",
   "created_at_iso", "bumped_at_iso",
   "location_text", "province", "district",
   "nearby_bts_json", "nearby_hospitals_json", "nearby_universities_json",
   "nearby_malls_json", "nearby_all_json",
   "nearest_bts_name", "nearest_bts_distance_km", "nearest_hospital_name",
   "nearest_hospital_distance_km", "nearest_mall_name",
   "nearest_mall_distance_km",
   "map_url", "lat", "lng",
   "agent_name", "agent_url", "agent_verified", "agent_rating",
   "clicks", "views", "favorites",
   "contact_phone", "contact_email", "contact_line_url", "contact_line_id",
   "contact_facebook_url", "contact_buttons",
   "description_text", "highlights", "detail_snippet",
   "images", "cover_image",
   "facilities_json", "facility_count", "has_pool", "has_gym", "has_parking",
   "has_security", "has_garden", "has_sauna", "has_ev_charger",
   "has_sky_pool", "has_foreigner_quota", "is_luxury", "has_private_lift",
   "quality_score", "price_score", "data_completeness", "anomaly_flags",
   "walkability_score", "location_score", "facility_score",
   "investment_score", "value_score"]

/-- The `finalRows` normalization of one row: for every schema key in order,
the row's value with `null` defaulted in (`o[k] = r?.[k] ?? null`). -/
def normalizeRow (r : List (String × JsValue)) : List (String × JsValue) :=
  SCHEMA_KEYS.map (fun k => (k, (mapGet r k).getD JsValue.vNull))

/-! ## Job store (server.js) -/

/-- Job lifecycle states. -/
inductive JobStatus where
  | running : JobStatus
  | done : JobStatus
  | error : JobStatus
deriving DecidableEq

/-- The server-side `meta` counters a job is created with. -/
structure JobMeta where
  pagesVisited : ℕ
  collected_links : ℕ
  sampled_links : ℕ
  total_parsed : ℕ
  errors : List String
deriving DecidableEq

/-- One record of the in-memory `jobs` map. Subscribers (`clients`) are
identified by opaque numbers; ending a subscriber's response channel is
modelled by emitting its identifier into a closed-clients list. -/
structure Job where
  createdAt : ℕ
  updatedAt : ℕ
  status : JobStatus
  opts : String
  meta : JobMeta
  rows : List Listing
  error : Option String
  clients : List ℕ
deriving DecidableEq

/-- The `jobs` map in insertion order (JS `Map` iterates in insertion
order). -/
abbrev Store : Type := List (String × Job)

/-- JS `Map.set`: overwrite in place, else append. -/
def mapSet (m : Store) (k : String) (v : Job) : Store :=
  if (m : List (String × Job)).any (fun e => e.1 = k) then
    (m : List (String × Job)).map (fun e => if e.1 = k then (k, v) else e)
  else (m : List (String × Job)) ++ [(k, v)]

/-- JS `Map.delete`. -/
def mapDelete (m : Store) (k : String) : Store :=
  (m : List (String × Job)).filter (fun e => e.1 ≠ k)

/-- Stable ascending insertion by `createdAt` (the eviction sort comparator
`a[1].createdAt - b[1].createdAt`). -/
def insertByCreated (x : String × Job) :
    List (String × Job) → List (String × Job)
  | [] => [x]
  | y :: rest =>
    if x.2.createdAt < y.2.createdAt then x :: y :: rest
    else y :: insertByCreated x rest

/-- Stable sort of the store's entries by ascending `createdAt`. -/
def sortByCreatedAt (m : Store) : List (String × Job) :=
  (m : List (String × Job)).foldl (fun acc x => insertByCreated x acc) []

/-- `evictIfNeeded`: nothing while the store is within `maxItems`; otherwise
remove the `max(1, size - maxItems)` oldest-created entries, ending each
removed job's subscriber channels (returned as the closed-clients list). -/
def evictIfNeeded (maxItems : ℕ) (m : Store) : Store × List ℕ :=
  if (m : List (String × Job)).length ≤ maxItems then (m, [])
  else
    let entries := sortByCreatedAt m
    let removeN := max 1 ((m : List (String × Job)).length - maxItems)
    let victims := entries.take removeN
    (victims.foldl (fun acc v => mapDelete acc v.1) m,
     (victims.map (fun v => v.2.clients)).flatten)

/-- The job record `createJob` installs. -/
def newJob (now : ℕ) (opts : String) : Job :=
  { createdAt := now, updatedAt := now, status := JobStatus.running,
    opts := opts,
    meta := { pagesVisited := 0, collected_links := 0, sampled_links := 0,
              total_parsed := 0, errors := [] },
    rows := [], error := none, clients := [] }

/-- `createJob`: evict first (before inserting), then install the fresh
`running` job under its (externally generated) id. -/
def createJob (maxItems : ℕ) (m : Store) (jobId : String) (now : ℕ)
    (opts : String) : Store × List ℕ :=
  let ev := evictIfNeeded maxItems m
  (mapSet ev.1 jobId (newJob now opts), ev.2)

/-- `getJob`: `null` for an unknown id; an over-TTL job is deleted on the
spot and reported as `null` — note the source ends no subscriber channel on
this path, hence the always-empty closed-clients component. -/
def getJob (m : Store) (jobId : String) (now ttl : ℕ) :
    Option Job × Store × List ℕ :=
  match mapGet m jobId with
  | none => (none, m, [])
  | some j =>
    if ttl < now - j.createdAt then (none, mapDelete m jobId, [])
    else (some j, m, [])

/-- The periodic TTL sweep: delete every over-TTL job, ending its subscriber
channels first. -/
def cleanupSweep (m : Store) (now ttl : ℕ) : Store × List ℕ :=
  ((m : List (String × Job)).filter (fun e => ¬ ttl < now - e.2.createdAt),
   (((m : List (String × Job)).filter
       (fun e => ttl < now - e.2.createdAt)).map
     (fun e => e.2.clients)).flatten)

/-- The payload of `GET /api/job/:id`. -/
structure JobSnapshot where
  status : JobStatus
  meta : JobMeta
  error : Option String
  rows : List Listing
deriving DecidableEq

/-- `GET /api/job/:id`: 404 (modelled `none`) if `getJob` found nothing,
otherwise the job's status / meta / error with `rows` empty unless the
status is `done`. -/
def apiJobSnapshot (m : Store) (jobId : String) (now ttl : ℕ) :
    Option JobSnapshot × Store :=
  match getJob m jobId now ttl with
  | (none, m2, _) => (none, m2)
  | (some j, m2, _) =>
    (some { status := j.status, meta := j.meta, error := j.error,
            rows := if j.status = JobStatus.done then j.rows else [] }, m2)

/-! ## Derived notions used by the theorems -/

/-- Ascending `createdAt` order on store entries (the eviction sort order). -/
def createdLE (a b : String × Job) : Prop := a.2.createdAt ≤ b.2.createdAt

/-- Descending `randScore` order on sources. -/
def randGE (a b : Source) : Prop := b.randScore ≤ a.randScore

/-- The mean links-found over the most recent 3 scroll samples after
recording the current one (what the adaptation branch of
`recommendScrollRounds` tests against 8 and 20). -/
def mean3 (e : Engine) (currentRounds linksFound : ℚ) : ℚ :=
  (((e.scrollEffectiveness ++ [(currentRounds, linksFound)]).drop
      (e.scrollEffectiveness.length + 1 - 3)).map Prod.snd).sum / 3

/-! ## Concrete instances the witnesses and counterexamples evaluate -/

/-- An engine with 5 equal global price samples (mean 100, variance 0) and a
3-sample category "condo" (mean 100). -/
def engineFiveSamples : Engine :=
  { emptyEngine with
    priceStats := { min := some 100, max := 100, sum := 500, count := 5,
                    values := [100, 100, 100, 100, 100] },
    categoryStats :=
      [(some "condo",
        { min := some 100, max := 100, sum := 300, count := 3 })] }

/-- An engine holding one recorded source-performance sample. -/
def engineOneSample : Engine :=
  { emptyEngine with
    sourcePerformance :=
      [("condo_bangkok",
        { attempts := 1, successes := 1, avgQuality := 1 / 2,
          avgLinksFound := 12, totalLinks := 12, score := 9 / 10 })] }

/-- A random stream that always draws 0. -/
def zeroRng : Rng := { seq := fun _ => 0, idx := 0 }

/-- A store already holding 2 jobs (capacity 2 exactly full). -/
def storeTwo : Store :=
  (createJob 2 ((createJob 2 ([] : Store) "a" 0 "o").1) "b" 1 "o").1

/-- A store of 3 jobs; the oldest one ("a") has an active subscriber 5. -/
def jobStoreABC : Store :=
  [("a", { newJob 0 "o" with clients := [5] }),
   ("b", newJob 1 "o"), ("c", newJob 2 "o")]

/-- A one-job store whose job has an active subscriber 7 and age 1500 at the
query times used below. -/
def jobWithClient : Job := { newJob 0 "o" with clients := [7] }

/-- The store holding only `jobWithClient` under id "a". -/
def storeWithClient : Store := [("a", jobWithClient)]

/-- A fresh one-job store for the snapshot witness. -/
def storeFreshJob : Store := [("j1", newJob 0 "o")]

/-- A listing with a title, price and location (signature
"nicecondo|2000000|Bangkok"). -/
def listingCondo : Listing :=
  { emptyListing with
    listing_url := some "https://www.livinginsider.com/livingdetail/1/a.html",
    listing_id := some "1",
    listing_title := some "Nice Condo",
    price_value := some 2000000,
    location_text := some "Bangkok" }

/-- A listing in which all five signature fields are falsy (empty title,
zero price, no area / bedrooms / location), fetched from one URL. -/
def listingBlankA : Listing :=
  { emptyListing with
    listing_url := some "https://www.livinginsider.com/livingdetail/111/a.html",
    listing_id := some "111",
    listing_title := some "",
    price_value := some 0 }

/-- A second all-falsy-signature listing from a different URL. -/
def listingBlankB : Listing :=
  { emptyListing with
    listing_url := some "https://www.livinginsider.com/livingdetail/222/b.html",
    listing_id := some "222" }

/-- The row the worker appends when processing `emptyListing` from the
initial run state. -/
def c4row : Listing :=
  applyScores (learnPrice
    { initialRunState.engine with
      duplicateSignatures := generateSignature emptyListing
        :: initialRunState.engine.duplicateSignatures }
    emptyListing.price_value emptyListing.category) emptyListing

/-! ## Helper lemmas -/

/-- `learnPrice` never touches the duplicate-signature set. -/
theorem learnPrice_dupSigs (e : Engine) (p : Option ℚ) (c : Option String) :
    (learnPrice e p c).duplicateSignatures = e.duplicateSignatures := by
  cases p with
  | none => rfl
  | some q =>
    simp only [learnPrice]
    split <;> rfl

/-- The worker loop body on a listing whose signature was already seen: the
row is discarded and only `duplicates_removed` advances. -/
theorem processRow_dup (s : RunState) (r : Listing)
    (h : generateSignature r ∈ s.engine.duplicateSignatures) :
    processRow s r
      = { s with duplicates_removed := s.duplicates_removed + 1 } := by
  simp [processRow, isDuplicate, h]

/-- The worker loop body on a listing with a fresh signature: the signature
is recorded, the price learned, and the scored row appended. -/
theorem processRow_fresh (s : RunState) (r : Listing)
    (h : generateSignature r ∉ s.engine.duplicateSignatures) :
    processRow s r
      = { s with
          engine := learnPrice
            { s.engine with duplicateSignatures :=
                generateSignature r :: s.engine.duplicateSignatures }
            r.price_value r.category,
          rows := s.rows ++ [applyScores (learnPrice
            { s.engine with duplicateSignatures :=
                generateSignature r :: s.engine.duplicateSignatures }
            r.price_value r.category) r],
          total_parsed := s.total_parsed + 1 } := by
  simp [processRow, isDuplicate, h]

/-- Processing a batch of already-seen signatures only counts duplicates. -/
theorem processRows_all_dups (rest : List Listing) :
    ∀ s : RunState,
      (∀ b ∈ rest, generateSignature b ∈ s.engine.duplicateSignatures) →
      (processRows s rest).engine = s.engine
      ∧ (processRows s rest).rows = s.rows
      ∧ (processRows s rest).duplicates_removed
          = s.duplicates_removed + rest.length
      ∧ (processRows s rest).total_parsed = s.total_parsed := by
  induction rest with
  | nil => exact fun s _ => ⟨rfl, rfl, rfl, rfl⟩
  | cons b rest ih =>
    intro s h
    have hb : generateSignature b ∈ s.engine.duplicateSignatures :=
      h b (List.mem_cons_self b rest)
    have hstep :
        processRows s (b :: rest)
          = processRows { s with duplicates_removed := s.duplicates_removed + 1 }
              rest := by
      show processRows (processRow s b) rest = _
      rw [processRow_dup s b hb]
    have ih2 := ih { s with duplicates_removed := s.duplicates_removed + 1 }
      (fun x hx => h x (List.mem_cons_of_mem b hx))
    rw [hstep]
    refine ⟨ih2.1, ih2.2.1, ?_, ih2.2.2.2⟩
    rw [ih2.2.2.1]
    simp only [List.length_cons]
    omega

/-! ## Claim theorems -/

/-- C3 (amended: nonzero price): for every nonzero price that qualifies both
as a global anomaly (at least 5 global samples, and z-score above 3 or price
below 10% of the global mean) and as a category anomaly (category with at
least 3 samples and price below 30% or above 300% of the category mean), the
single returned flag is the global one, `outlier_high` or `outlier_low`,
never the category one. -/
theorem c3_global_precedence (e : Engine) (p : ℚ) (c : String) (cs : CatStats)
    (hp : p ≠ 0)
    (hcount : 5 ≤ e.priceStats.count)
    (hglobal : 9 * zDenomSq e < (p - globalMean e) ^ 2
      ∨ p < globalMean e * (1 / 10))
    (hc : c ≠ "")
    (hcs : mapGet e.categoryStats (some c) = some cs)
    (hcn : 3 ≤ cs.count)
    (hcat : p < cs.sum / (cs.count : ℚ) * (3 / 10)
      ∨ cs.sum / (cs.count : ℚ) * 3 < p) :
    detectPriceAnomaly e (some p) (some c) = some "outlier_high"
    ∨ detectPriceAnomaly e (some p) (some c) = some "outlier_low" := by
  have hguard : ¬ (p = 0 ∨ e.priceStats.count < 5) := by
    push_neg
    exact ⟨hp, by omega⟩
  by_cases hz : 9 * zDenomSq e < (p - globalMean e) ^ 2
  · left
    simp only [detectPriceAnomaly, if_neg hguard, if_pos hz]
  · right
    have hlow : p < globalMean e * (1 / 10) := hglobal.resolve_left hz
    simp only [detectPriceAnomaly, if_neg hguard, if_neg hz, if_pos hlow]

/-- C3 witness: a concrete price (5) that is a global z-outlier and below 30%
of its category mean is flagged with the global verdict. -/
theorem c3_witness :
    detectPriceAnomaly engineFiveSamples (some 5) (some "condo")
      = some "outlier_high"
    ∨ detectPriceAnomaly engineFiveSamples (some 5) (some "condo")
      = some "outlier_low" :=
  c3_global_precedence engineFiveSamples 5 "condo"
    { min := some 100, max := 100, sum := 300, count := 3 }
    (by norm_num) (by decide)
    (Or.inl (by norm_num [zDenomSq, stdDevSq, globalMean, engineFiveSamples,
      emptyEngine]))
    (by decide) (by rfl) (by decide)
    (Or.inl (by norm_num))

/-- C3 counterexample: price 0 qualifies as both a global anomaly (5 samples,
z-score 100 > 3, and 0 below 10% of the mean 100) and a category anomaly
(3 samples, 0 below 30% of the category mean 100), yet the claim's promised
global flag is not returned: the falsy-price guard returns no flag at all. -/
theorem c3_counterexample :
    (5 ≤ engineFiveSamples.priceStats.count
     ∧ 9 * zDenomSq engineFiveSamples
         < ((0 : ℚ) - globalMean engineFiveSamples) ^ 2
     ∧ (0 : ℚ) < globalMean engineFiveSamples * (1 / 10)
     ∧ mapGet engineFiveSamples.categoryStats (some "condo")
         = some { min := some 100, max := 100, sum := 300, count := 3 }
     ∧ (0 : ℚ) < 300 / (3 : ℚ) * (3 / 10))
    ∧ detectPriceAnomaly engineFiveSamples (some 0) (some "condo") = none := by
  refine ⟨⟨by decide, ?_, ?_, by rfl, by norm_num⟩, ?_⟩
  · norm_num [zDenomSq, stdDevSq, globalMean, engineFiveSamples, emptyEngine]
  · norm_num [globalMean, engineFiveSamples, emptyEngine]
  · simp [detectPriceAnomaly]

/-- C4: every row the worker appends carries
`value_score = round(quality_score*0.4 + price_score*0.3 + location_score*0.3)`
computed from the quality and price scores stored on that same row (the
quality score having been assigned first). -/
theorem c4_value_score (s : RunState) (a r2 : Listing) (q ps : ℚ)
    (hrows : (processRow s a).rows = s.rows ++ [r2])
    (hq : r2.quality_score = some q)
    (hps : r2.price_score = some ps) :
    r2.value_score
      = ((jsRound (q * (2 / 5) + ps * (3 / 10)
          + r2.location_score * (3 / 10)) : ℤ) : ℚ) := by
  by_cases hd : generateSignature a ∈ s.engine.duplicateSignatures
  · exfalso
    rw [processRow_dup s a hd] at hrows
    have hlen : s.rows.length = (s.rows ++ [r2]).length := by
      exact congrArg List.length hrows
    simp at hlen
  · rw [processRow_fresh s a hd] at hrows
    simp only [] at hrows
    have h2 : applyScores (learnPrice
        { s.engine with duplicateSignatures :=
            generateSignature a :: s.engine.duplicateSignatures }
        a.price_value a.category) a = r2 := by
      have := List.append_cancel_left hrows
      simpa using this
    rw [← h2] at hq hps ⊢
    simp only [applyScores, Option.some.injEq] at hq hps ⊢
    rw [← hq, ← hps]
    congr 1
    ring

/-- C4 witness: the row appended for an all-empty listing satisfies the
value-score equation with its stored quality score 0 and price score 0. -/
theorem c4_witness :
    c4row.value_score
      = ((jsRound ((0 : ℚ) * (2 / 5) + (0 : ℚ) * (3 / 10)
          + c4row.location_score * (3 / 10)) : ℤ) : ℚ) :=
  c4_value_score initialRunState emptyListing c4row 0 0
    (by rw [processRow_fresh initialRunState emptyListing
          (by simp [initialRunState, emptyEngine])]
        rfl)
    (by norm_num [c4row, applyScores, calculateQualityScore,
      scoreDataCompleteness, scoreContactQuality, scoreImageQuality,
      scorePriceReliability, jsTruthyStr, fieldFilledStr, fieldFilledNum,
      emptyListing, jsRound])
    (by norm_num [c4row, applyScores, scorePriceReliability, emptyListing])

/-- C5: within one run, a batch consisting of a fresh-signature listing
followed by any number of signature-equal repeats appends exactly one row
(the first occurrence, scored), records the signature, and increments
`duplicates_removed` by exactly one per repeat. -/
theorem c5_duplicate_rows_once (s : RunState) (a : Listing)
    (rest : List Listing)
    (hall : ∀ b ∈ rest, generateSignature b = generateSignature a)
    (hfresh : generateSignature a ∉ s.engine.duplicateSignatures) :
    (processRows s (a :: rest)).rows
        = s.rows ++ [applyScores (learnPrice
            { s.engine with duplicateSignatures :=
                generateSignature a :: s.engine.duplicateSignatures }
            a.price_value a.category) a]
    ∧ (processRows s (a :: rest)).rows.length = s.rows.length + 1
    ∧ (processRows s (a :: rest)).duplicates_removed
        = s.duplicates_removed + rest.length
    ∧ generateSignature a ∈ (processRow s a).engine.duplicateSignatures := by
  have hstep := processRow_fresh s a hfresh
  have hsig : generateSignature a
      ∈ (processRow s a).engine.duplicateSignatures := by
    rw [hstep]
    simp only []
    rw [learnPrice_dupSigs]
    exact List.mem_cons_self _ _
  have hall2 : ∀ b ∈ rest,
      generateSignature b ∈ (processRow s a).engine.duplicateSignatures := by
    intro b hb
    rw [hall b hb]
    exact hsig
  have hrest := processRows_all_dups rest (processRow s a) hall2
  have hshow : processRows s (a :: rest) = processRows (processRow s a) rest :=
    rfl
  rw [hshow]
  refine ⟨?_, ?_, ?_, hsig⟩
  · rw [hrest.2.1, hstep]
  · rw [hrest.2.1, hstep]
    simp
  · rw [hrest.2.2.1, hstep]

/-- C5 witness: the same listing twice from a fresh state yields one row and
one counted duplicate. -/
theorem c5_witness :
    (processRows initialRunState [listingCondo, listingCondo]).rows.length
        = initialRunState.rows.length + 1
    ∧ (processRows initialRunState [listingCondo, listingCondo]).duplicates_removed
        = initialRunState.duplicates_removed + [listingCondo].length :=
  have h := c5_duplicate_rows_once initialRunState listingCondo [listingCondo]
    (by simp) (by simp [initialRunState, emptyEngine])
  ⟨h.2.1, h.2.2.1⟩

/-- C7: the scroll-round recommendation returns the current round count
unchanged while the recorded history (including the sample just fed) has
fewer than 3 entries; once it has at least 3, the mean links over the most
recent 3 samples drives the result — `current+5` capped at 35 when the mean
is below 8, `current-3` floored at 15 when above 20, unchanged otherwise —
and feeding `(rounds 10, links 5)` three times yields `min (10+5) 35 = 15`. -/
theorem c7_scroll_recommendation :
    (∀ (e : Engine) (c l : ℚ), e.scrollEffectiveness.length + 1 < 3 →
        (recommendScrollRounds e c l).2 = c)
    ∧ (∀ (e : Engine) (c l : ℚ), 3 ≤ e.scrollEffectiveness.length + 1 →
        (recommendScrollRounds e c l).2 =
          (if mean3 e c l < 8 then min (c + 5) 35
           else if 20 < mean3 e c l then max (c - 3) 15 else c))
    ∧ (recommendScrollRounds emptyEngine 10 5).2 = 10
    ∧ (recommendScrollRounds (recommendScrollRounds emptyEngine 10 5).1
        10 5).2 = 10
    ∧ (recommendScrollRounds (recommendScrollRounds
        (recommendScrollRounds emptyEngine 10 5).1 10 5).1 10 5).2
        = min (10 + 5 : ℚ) 35
    ∧ min (10 + 5 : ℚ) 35 = 15 := by
  have hlen : ∀ (e : Engine) (c l : ℚ),
      (e.scrollEffectiveness ++ [(c, l)]).length
        = e.scrollEffectiveness.length + 1 := by
    intro e c l
    simp
  refine ⟨?_, ?_, ?_, ?_, ?_, by norm_num⟩
  · intro e c l h
    simp only [recommendScrollRounds, scrollDecision, hlen]
    rw [if_pos h]
  · intro e c l h
    have h3 : ¬ (e.scrollEffectiveness ++ [(c, l)]).length < 3 := by
      rw [hlen]
      omega
    have hdl : ((e.scrollEffectiveness ++ [(c, l)]).drop
        ((e.scrollEffectiveness ++ [(c, l)]).length - 3)).length = 3 := by
      rw [List.length_drop, hlen]
      omega
    simp only [recommendScrollRounds, scrollDecision, if_neg h3]
    rw [hdl, hlen, mean3]
    norm_num
  · norm_num [recommendScrollRounds, scrollDecision, emptyEngine]
  · norm_num [recommendScrollRounds, scrollDecision, emptyEngine]
  · norm_num [recommendScrollRounds, scrollDecision, emptyEngine]

/-- C7 witness: the first feed (history of one sample) leaves the round
count unchanged. -/
theorem c7_witness : (recommendScrollRounds emptyEngine 10 5).2 = 10 :=
  c7_scroll_recommendation.1 emptyEngine 10 5 (by decide)

/-- C9: the job snapshot query returns not-found for an unknown id and for a
job older than the TTL (which it deletes on the spot); otherwise it returns
the job's status, meta and error with `rows` empty unless the status is
`done`. -/
theorem c9_snapshot (m : Store) (id : String) (now ttl : ℕ) :
    (mapGet m id = none → (apiJobSnapshot m id now ttl).1 = none)
    ∧ (∀ j : Job, mapGet m id = some j → ttl < now - j.createdAt →
        (apiJobSnapshot m id now ttl).1 = none
        ∧ mapGet (apiJobSnapshot m id now ttl).2 id = none)
    ∧ (∀ j : Job, mapGet m id = some j → ¬ ttl < now - j.createdAt →
        (apiJobSnapshot m id now ttl).1
          = some { status := j.status, meta := j.meta, error := j.error,
                   rows := if j.status = JobStatus.done then j.rows
                           else [] }) := by
  refine ⟨?_, ?_, ?_⟩
  · intro h
    simp [apiJobSnapshot, getJob, h]
  · intro j hj hexp
    constructor
    · simp [apiJobSnapshot, getJob, hj, hexp]
    · simp only [apiJobSnapshot, getJob, hj, if_pos hexp]
      simp [mapGet, mapDelete, List.find?_filter]
  · intro j hj hexp
    simp [apiJobSnapshot, getJob, hj, hexp]

/-- C9 witness: a job created at time 0 with TTL 1000, queried at 1500, is
reported not-found and removed. -/
theorem c9_witness :
    (apiJobSnapshot storeFreshJob "j1" 1500 1000).1 = none :=
  ((c9_snapshot storeFreshJob "j1" 1500 1000).2.1 (newJob 0 "o")
    (by decide) (by decide)).1

/-- C10: the duplicate signature is built only from the falsy-filtered
title / price / area / bedrooms / location components — never from the
listing URL or id — so any two listings agreeing on all their non-falsy
signature components share one signature, and processing the second after
the first discards it as a duplicate even when it came from a different
URL. -/
theorem c10_signature_ignores_url (a b : Listing) (s : RunState)
    (h1 : sigStr (a.listing_title.map (fun t => stripWhitespaceAll (jsToLowerCase t)))
        = sigStr (b.listing_title.map (fun t => stripWhitespaceAll (jsToLowerCase t))))
    (h2 : sigNum a.price_value = sigNum b.price_value)
    (h3 : sigNum a.usable_area_sqm = sigNum b.usable_area_sqm)
    (h4 : sigNum a.bedrooms = sigNum b.bedrooms)
    (h5 : sigStr a.location_text = sigStr b.location_text)
    (hfresh : generateSignature a ∉ s.engine.duplicateSignatures) :
    generateSignature a = generateSignature b
    ∧ (∀ u i : Option String,
        generateSignature { a with listing_url := u, listing_id := i }
          = generateSignature a)
    ∧ (processRows s [a, b]).rows.length = s.rows.length + 1
    ∧ (processRows s [a, b]).duplicates_removed
        = s.duplicates_removed + 1 := by
  have hsig : generateSignature a = generateSignature b := by
    unfold generateSignature signatureParts
    rw [h1, h2, h3, h4, h5]
  have hstep := processRow_fresh s a hfresh
  have hmem : generateSignature b
      ∈ (processRow s a).engine.duplicateSignatures := by
    rw [← hsig, hstep]
    simp only []
    rw [learnPrice_dupSigs]
    exact List.mem_cons_self _ _
  have hsecond : processRows s [a, b] =
      { processRow s a with duplicates_removed :=
          (processRow s a).duplicates_removed + 1 } := by
    show processRows (processRow s a) [b] = _
    show processRows (processRow (processRow s a) b) [] = _
    rw [processRow_dup (processRow s a) b hmem]
    rfl
  refine ⟨hsig, fun u i => rfl, ?_, ?_⟩
  · rw [hsecond]
    show (processRow s a).rows.length = s.rows.length + 1
    rw [hstep]
    simp
  · rw [hsecond]
    show (processRow s a).duplicates_removed + 1 = s.duplicates_removed + 1
    rw [hstep]

/-- C10 witness: two listings with every signature field falsy (empty or
zero or absent) but different URLs and ids collide on the empty signature;
the second is discarded and counted. -/
theorem c10_witness :
    generateSignature listingBlankA = generateSignature listingBlankB
    ∧ (processRows initialRunState [listingBlankA, listingBlankB]).rows.length
        = initialRunState.rows.length + 1
    ∧ (processRows initialRunState
        [listingBlankA, listingBlankB]).duplicates_removed
        = initialRunState.duplicates_removed + 1 :=
  have h := c10_signature_ignores_url listingBlankA listingBlankB
    initialRunState
    (by decide)
    (by simp [listingBlankA, listingBlankB, emptyListing, sigNum])
    (by rfl) (by rfl) (by rfl)
    (by simp [initialRunState, emptyEngine])
  ⟨h.1, h.2.2.1, h.2.2.2⟩

/-- C8 (amended: the fixed schema has 77 keys, not the 76 the source
comments claim): every normalized output row carries exactly the fixed
schema key list — no key missing, none duplicated, none extra — and every
key for which the raw row holds no data is explicitly null. -/
theorem c8_schema_normalization (r : List (String × JsValue)) :
    (normalizeRow r).map Prod.fst = SCHEMA_KEYS
    ∧ SCHEMA_KEYS.Nodup
    ∧ SCHEMA_KEYS.length = 77
    ∧ (∀ k, k ∈ SCHEMA_KEYS → mapGet r k = none →
        (k, JsValue.vNull) ∈ normalizeRow r) := by
  refine ⟨?_, by decide, by decide, ?_⟩
  · simp [normalizeRow, Function.comp_def]
  · intro k hk h
    unfold normalizeRow
    have hmem := List.mem_map_of_mem
      (fun k => (k, (mapGet r k).getD JsValue.vNull)) hk
    simp only [h, Option.getD_none] at hmem
    exact hmem

/-- C8 witness: the all-absent raw row normalizes to the exact schema key
list, with `listing_id` explicitly null. -/
theorem c8_witness :
    (normalizeRow []).map Prod.fst = SCHEMA_KEYS
    ∧ ("listing_id", JsValue.vNull) ∈ normalizeRow [] :=
  ⟨(c8_schema_normalization []).1,
   (c8_schema_normalization []).2.2.2 "listing_id" (by decide) (by rfl)⟩

/-- C8 counterexample: the normalized row carries 77 keys, not 76 — the
"76 columns" count the claim repeats from the source's comments is off by
one against the actual `SCHEMA_KEYS` list. -/
theorem c8_counterexample :
    ((normalizeRow []).map Prod.fst).length = 77
    ∧ ((normalizeRow []).map Prod.fst).length ≠ 76 := by
  decide

/-- Jittered insertion permutes. -/
theorem jitterInsert_perm (x : Source) :
    ∀ (l : List Source) (g : Rng), (jitterInsert x l g).1.Perm (x :: l) := by
  intro l
  induction l with
  | nil => intro g; exact List.Perm.refl _
  | cons y rest ih =>
    intro g
    simp only [jitterInsert]
    split
    · exact List.Perm.refl _
    · exact ((ih _).cons y).trans (List.Perm.swap x y rest)

/-- The jittered sort's fold permutes. -/
theorem jitterSort_foldl_perm :
    ∀ (l acc : List Source) (g : Rng),
      (List.foldl (fun acc x =>
        let t := jitterInsert x acc.1 acc.2
        (t.1, t.2)) (acc, g) l).1.Perm (acc ++ l) := by
  intro l
  induction l with
  | nil => intro acc g; simp
  | cons x l ih =>
    intro acc g
    refine ((ih _ _).trans ?_)
    refine (((jitterInsert_perm x acc g).append_right l).trans ?_)
    exact List.perm_middle.symm

/-- The jittered ordering is a permutation of its input. -/
theorem jitterSort_perm (l : List Source) (g : Rng) :
    (jitterSort l g).1.Perm l := by
  simpa using jitterSort_foldl_perm l [] g

/-- `getBestSources` returns `min count |sources|` entries, each one an input
source spread with its learned score (0.5 when unseen). -/
theorem getBestSources_spec (e : Engine) (src : List Source) (count : ℕ)
    (g : Rng) :
    (getBestSources e src count g).1.length = min count src.length
    ∧ ∀ x ∈ (getBestSources e src count g).1, ∃ s0 ∈ src,
        x = { s0 with aiScore :=
          ((mapGet e.sourcePerformance s0.id).map Perf.score).getD (1 / 2) } := by
  have hperm := jitterSort_perm (src.map (fun s0 =>
    { s0 with aiScore :=
      ((mapGet e.sourcePerformance s0.id).map Perf.score).getD (1 / 2) })) g
  constructor
  · show (List.take count _).length = _
    rw [List.length_take, hperm.length_eq, List.length_map]
  · intro x hx
    have hx2 := hperm.mem_iff.mp (List.mem_of_mem_take hx)
    obtain ⟨s0, hs0, heq⟩ := List.mem_map.mp hx2
    exact ⟨s0, hs0, heq.symm⟩

/-- Descending random-score insertion permutes. -/
theorem randInsert_perm (x : Source) :
    ∀ l : List Source, (randInsert x l).Perm (x :: l) := by
  intro l
  induction l with
  | nil => exact List.Perm.refl _
  | cons y rest ih =>
    simp only [randInsert]
    split
    · exact List.Perm.refl _
    · exact (ih.cons y).trans (List.Perm.swap x y rest)

/-- Descending random-score insertion preserves descending order. -/
theorem randInsert_pairwise (x : Source) :
    ∀ l : List Source, l.Pairwise randGE → (randInsert x l).Pairwise randGE := by
  intro l
  induction l with
  | nil => intro _; simp [randInsert]
  | cons y rest ih =>
    intro h
    obtain ⟨hy, hrest⟩ := List.pairwise_cons.mp h
    simp only [randInsert]
    split
    · rename_i hlt
      refine List.pairwise_cons.mpr ⟨?_, h⟩
      intro b hb
      rcases List.mem_cons.mp hb with hb | hb
      · subst hb; exact le_of_lt hlt
      · exact le_trans (hy b hb) (le_of_lt hlt)
    · rename_i hnlt
      refine List.pairwise_cons.mpr ⟨?_, ih hrest⟩
      intro b hb
      have hb2 := (randInsert_perm x rest).mem_iff.mp hb
      rcases List.mem_cons.mp hb2 with hb2 | hb2
      · subst hb2; exact le_of_not_lt hnlt
      · exact hy b hb2

/-- The descending sort's fold permutes. -/
theorem sortByRandScoreDesc_foldl_perm :
    ∀ (l acc : List Source),
      (List.foldl (fun acc x => randInsert x acc) acc l).Perm (acc ++ l) := by
  intro l
  induction l with
  | nil => intro acc; simp
  | cons x l ih =>
    intro acc
    refine (ih _).trans ?_
    exact ((randInsert_perm x acc).append_right l).trans List.perm_middle.symm

/-- The descending sort permutes its input. -/
theorem sortByRandScoreDesc_perm (l : List Source) :
    (sortByRandScoreDesc l).Perm l := by
  simpa using sortByRandScoreDesc_foldl_perm l []

/-- The descending sort's fold is descending. -/
theorem sortByRandScoreDesc_pairwise (l : List Source) :
    (sortByRandScoreDesc l).Pairwise randGE := by
  suffices h : ∀ (l acc : List Source), acc.Pairwise randGE →
      (List.foldl (fun acc x => randInsert x acc) acc l).Pairwise randGE by
    exact h l [] List.Pairwise.nil
  intro l
  induction l with
  | nil => intro acc h; exact h
  | cons x l ih =>
    intro acc h
    exact ih _ (randInsert_pairwise x acc h)

/-- The first-run scoring draws one random per source in order and scales it
by the source's static weight. -/
theorem assignRandScores_spec :
    ∀ (l : List Source) (g : Rng),
      (assignRandScores l g).1.length = l.length
      ∧ ∀ x ∈ (assignRandScores l g).1, ∃ s0 ∈ l, ∃ n : ℕ,
          x = { s0 with randScore := s0.weight * g.seq n } := by
  intro l
  induction l with
  | nil => intro g; exact ⟨rfl, by intro x hx; simp [assignRandScores] at hx⟩
  | cons s0 l ih =>
    intro g
    constructor
    · show ((assignRandScores l _).1).length + 1 = _
      rw [(ih _).1]
      rfl
    · intro x hx
      rcases List.mem_cons.mp hx with hx | hx
      · exact ⟨s0, List.mem_cons_self _ _, g.idx, hx⟩
      · obtain ⟨s1, hs1, n, hn⟩ := (ih _).2 x hx
        exact ⟨s1, List.mem_cons_of_mem _ hs1, n, hn⟩

/-- The source table has 25 entries (5 categories × 5 locations). -/
theorem generateSearchURLs_length : generateSearchURLs.length = 25 := by
  rfl

/-- The learned branch of `selectSmartSources` returns
`min (ceil(target/10)) 25` sources. -/
theorem selectSmartSources_length_learned (target : ℕ) (e : Engine) (g : Rng)
    (h : 0 < e.sourcePerformance.length) :
    (selectSmartSources target e g).1.length = min (jsCeilDiv10 target) 25 := by
  show (if 0 < e.sourcePerformance.length then _ else _ : List Source × Rng).1.length = _
  rw [if_pos h]
  rw [(getBestSources_spec e generateSearchURLs (jsCeilDiv10 target) g).1]
  rw [generateSearchURLs_length]

/-- C6 (amended): with at least one recorded performance sample, every
source is spread with `aiScore = learned score (0.5 if unseen)`, the list is
reordered by the jittered comparator (a fresh jitter in [0, 0.2) is drawn
for each operand at every comparison, so the order is not a sort by fixed
per-source scores), and the first `min(ceil(targetCount/10), 25)` of the
reordering are returned — not always exactly `ceil(targetCount/10)`, since
only 25 sources exist. Otherwise every source is scored
`staticWeight * random[0,1)`, sorted descending by that score, and the first
`min(max(ceil(targetCount/10), 3), 25)` are returned. -/
theorem c6_source_selection (target : ℕ) (e : Engine) (g : Rng) :
    (0 < e.sourcePerformance.length →
      (selectSmartSources target e g).1.length = min (jsCeilDiv10 target) 25
      ∧ ∀ x ∈ (selectSmartSources target e g).1, ∃ src ∈ generateSearchURLs,
          x = { src with aiScore :=
            ((mapGet e.sourcePerformance src.id).map Perf.score).getD (1 / 2) })
    ∧ (e.sourcePerformance.length = 0 →
      (selectSmartSources target e g).1.length
          = min (max (jsCeilDiv10 target) 3) 25
      ∧ (selectSmartSources target e g).1.Pairwise randGE
      ∧ ∀ x ∈ (selectSmartSources target e g).1, ∃ src ∈ generateSearchURLs,
          ∃ n : ℕ, x = { src with randScore := src.weight * g.seq n }) := by
  constructor
  · intro h
    refine ⟨selectSmartSources_length_learned target e g h, ?_⟩
    intro x hx
    have hx2 : x ∈ (getBestSources e generateSearchURLs
        (jsCeilDiv10 target) g).1 := by
      have hsel : selectSmartSources target e g
          = getBestSources e generateSearchURLs (jsCeilDiv10 target) g := by
        show (if 0 < e.sourcePerformance.length then _ else _) = _
        rw [if_pos h]
      rw [hsel] at hx
      exact hx
    exact (getBestSources_spec e generateSearchURLs (jsCeilDiv10 target) g).2
      x hx2
  · intro h
    have hsel : (selectSmartSources target e g).1
        = (sortByRandScoreDesc
            (assignRandScores generateSearchURLs g).1).take
            (max (jsCeilDiv10 target) 3) := by
      show (if 0 < e.sourcePerformance.length then _ else _ :
        List Source × Rng).1 = _
      rw [if_neg (by omega)]
    have hlen : (sortByRandScoreDesc
        (assignRandScores generateSearchURLs g).1).length = 25 := by
      rw [(sortByRandScoreDesc_perm _).length_eq,
        (assignRandScores_spec generateSearchURLs g).1,
        generateSearchURLs_length]
    refine ⟨?_, ?_, ?_⟩
    · rw [hsel, List.length_take, hlen]
    · rw [hsel]
      exact (sortByRandScoreDesc_pairwise _).sublist (List.take_sublist _ _)
    · intro x hx
      rw [hsel] at hx
      have hx2 := (sortByRandScoreDesc_perm _).mem_iff.mp
        (List.mem_of_mem_take hx)
      exact (assignRandScores_spec generateSearchURLs g).2 x hx2

/-- C6 witness: with one learned sample and target 40, exactly
`min(ceil(40/10), 25) = 4` sources come back; on a first run with target 40,
`min(max(4, 3), 25) = 4`. -/
theorem c6_witness :
    (selectSmartSources 40 engineOneSample zeroRng).1.length
        = min (jsCeilDiv10 40) 25
    ∧ (selectSmartSources 40 emptyEngine zeroRng).1.length
        = min (max (jsCeilDiv10 40) 3) 25 :=
  ⟨((c6_source_selection 40 engineOneSample zeroRng).1 (by decide)).1,
   ((c6_source_selection 40 emptyEngine zeroRng).2 (by rfl)).1⟩

/-- C6 counterexample: with a learned sample and `targetCount = 5000` the
claim's "exactly the top ceil(targetCount/10)" would be 500 sources, but the
selection returns only the 25 that exist. -/
theorem c6_counterexample :
    jsCeilDiv10 5000 = 500
    ∧ (selectSmartSources 5000 engineOneSample zeroRng).1.length = 25
    ∧ (selectSmartSources 5000 engineOneSample zeroRng).1.length
        ≠ jsCeilDiv10 5000 := by
  have hlen := selectSmartSources_length_learned 5000 engineOneSample zeroRng
    (by decide)
  refine ⟨by decide, ?_, ?_⟩
  · rw [hlen]
    decide
  · rw [hlen]
    decide

/-- Ascending `createdAt` insertion permutes. -/
theorem insertByCreated_perm (x : String × Job) :
    ∀ l : List (String × Job), (insertByCreated x l).Perm (x :: l) := by
  intro l
  induction l with
  | nil => exact List.Perm.refl _
  | cons y rest ih =>
    simp only [insertByCreated]
    split
    · exact List.Perm.refl _
    · exact (ih.cons y).trans (List.Perm.swap x y rest)

/-- Ascending `createdAt` insertion preserves ascending order. -/
theorem insertByCreated_pairwise (x : String × Job) :
    ∀ l : List (String × Job), l.Pairwise createdLE →
      (insertByCreated x l).Pairwise createdLE := by
  intro l
  induction l with
  | nil => intro _; simp [insertByCreated, createdLE]
  | cons y rest ih =>
    intro h
    obtain ⟨hy, hrest⟩ := List.pairwise_cons.mp h
    simp only [insertByCreated]
    split
    · rename_i hlt
      refine List.pairwise_cons.mpr ⟨?_, h⟩
      intro b hb
      rcases List.mem_cons.mp hb with hb | hb
      · subst hb; exact le_of_lt hlt
      · exact le_trans (le_of_lt hlt) (hy b hb)
    · rename_i hnlt
      refine List.pairwise_cons.mpr ⟨?_, ih hrest⟩
      intro b hb
      have hb2 := (insertByCreated_perm x rest).mem_iff.mp hb
      rcases List.mem_cons.mp hb2 with hb2 | hb2
      · subst hb2; exact le_of_not_lt hnlt
      · exact hy b hb2

/-- The eviction sort permutes the store. -/
theorem sortByCreatedAt_perm (m : Store) : (sortByCreatedAt m).Perm m := by
  suffices h : ∀ (l acc : List (String × Job)),
      (List.foldl (fun acc x => insertByCreated x acc) acc l).Perm (acc ++ l) by
    simpa using h m []
  intro l
  induction l with
  | nil => intro acc; simp
  | cons x l ih =>
    intro acc
    refine (ih _).trans ?_
    exact ((insertByCreated_perm x acc).append_right l).trans
      List.perm_middle.symm

/-- The eviction sort is ascending in `createdAt`. -/
theorem sortByCreatedAt_pairwise (m : Store) :
    (sortByCreatedAt m).Pairwise createdLE := by
  suffices h : ∀ (l acc : List (String × Job)), acc.Pairwise createdLE →
      (List.foldl (fun acc x => insertByCreated x acc) acc l).Pairwise
        createdLE by
    exact h m [] List.Pairwise.nil
  intro l
  induction l with
  | nil => intro acc h; exact h
  | cons x l ih =>
    intro acc h
    exact ih _ (insertByCreated_pairwise x acc h)

/-- The eviction deletion loop is a filter along the victims' keys. -/
theorem foldl_mapDelete_eq_filter (vs : List (String × Job)) :
    ∀ m : Store,
      List.foldl (fun acc v => mapDelete acc v.1) m vs
        = m.filter (fun en => !(vs.any (fun v => v.1 = en.1))) := by
  induction vs with
  | nil =>
    intro m
    simp
  | cons v vs ih =>
    intro m
    show List.foldl _ (mapDelete m v.1) vs = _
    rw [ih (mapDelete m v.1)]
    show (m.filter _).filter _ = _
    rw [List.filter_filter]
    apply List.filter_congr
    intro a _
    simp only [ne_eq, decide_not, List.any_cons, Bool.not_or]
    rw [Bool.and_comm]
    congr 1
    simp [eq_comm]

/-- In a store with distinct keys, a key determines its record. -/
theorem nodupKeys_value_unique {β : Type} :
    ∀ (m : List (String × β)), (m.map Prod.fst).Nodup →
      ∀ {k : String} {a b : β}, (k, a) ∈ m → (k, b) ∈ m → a = b := by
  intro m
  induction m with
  | nil => intro _ k a b h; cases h
  | cons e m ih =>
    intro hnd k a b ha hb
    simp only [List.map_cons, List.nodup_cons] at hnd
    obtain ⟨hkey, hnd2⟩ := hnd
    rcases List.mem_cons.mp ha with ha | ha <;>
      rcases List.mem_cons.mp hb with hb | hb
    · rw [← ha] at hb
      exact ((Prod.mk.injEq _ _ _ _).mp hb).2.symm
    · exfalso
      apply hkey
      rw [← ha]
      exact List.mem_map.mpr ⟨(k, b), hb, rfl⟩
    · exfalso
      apply hkey
      rw [← hb]
      exact List.mem_map.mpr ⟨(k, a), ha, rfl⟩
    · exact ih hnd2 ha hb

/-- `Map.set` with a fresh key appends. -/
theorem mapSet_fresh (m : Store) (k : String) (v : Job)
    (h : k ∉ m.map Prod.fst) : mapSet m k v = m ++ [(k, v)] := by
  rw [mapSet, if_neg]
  intro hc
  obtain ⟨e, he, heq⟩ := List.any_eq_true.mp hc
  exact h (of_decide_eq_true heq ▸ List.mem_map_of_mem Prod.fst he)

/-- `Map.get` finds a freshly appended key. -/
theorem mapGet_append_fresh :
    ∀ (m : List (String × Job)) (k : String) (v : Job),
      k ∉ m.map Prod.fst → mapGet (m ++ [(k, v)]) k = some v := by
  intro m
  induction m with
  | nil => intro k v _; simp [mapGet]
  | cons e m ih =>
    intro k v h
    simp only [List.map_cons, List.mem_cons, not_or] at h
    obtain ⟨h1, h2⟩ := h
    show mapGet (e :: (m ++ [(k, v)])) k = some v
    rw [mapGet, List.find?_cons_of_neg, ← mapGet, ih k v h2]
    simp only [decide_eq_true_eq]
    exact fun hc => h1 hc.symm

/-- C2 (amended): the periodic TTL sweep and capacity eviction both end every
removed job's subscriber channels, but the TTL expiry detected inside the
job lookup (`getJob`) deletes the job WITHOUT disconnecting its subscribers,
so that one removal path can leak open subscriber connections. -/
theorem c2_removal_paths :
    (∀ (m : Store) (now ttl : ℕ) (k : String) (j : Job), (k, j) ∈ m →
        ttl < now - j.createdAt →
        (k, j) ∉ (cleanupSweep m now ttl).1
        ∧ ∀ cl ∈ j.clients, cl ∈ (cleanupSweep m now ttl).2)
    ∧ (∀ (maxItems : ℕ) (m : Store) (k : String) (j : Job),
        (m.map Prod.fst).Nodup → (k, j) ∈ m →
        k ∉ (evictIfNeeded maxItems m).1.map Prod.fst →
        ∀ cl ∈ j.clients, cl ∈ (evictIfNeeded maxItems m).2)
    ∧ (∀ (m : Store) (id : String) (now ttl : ℕ) (j : Job),
        mapGet m id = some j → ttl < now - j.createdAt →
        (getJob m id now ttl).1 = none
        ∧ mapGet (getJob m id now ttl).2.1 id = none
        ∧ (getJob m id now ttl).2.2 = []) := by
  refine ⟨?_, ?_, ?_⟩
  · intro m now ttl k j hm hexp
    constructor
    · intro hc
      have := (List.mem_filter.mp hc).2
      simp [hexp] at this
    · intro cl hcl
      refine List.mem_flatten.mpr ⟨j.clients, ?_, hcl⟩
      refine List.mem_map.mpr ⟨(k, j), ?_, rfl⟩
      exact List.mem_filter.mpr ⟨hm, by simpa using hexp⟩
  · intro maxItems m k j hnd hm hk
    by_cases hover : m.length ≤ maxItems
    · exfalso
      apply hk
      have : (evictIfNeeded maxItems m).1 = m := by
        rw [evictIfNeeded, if_pos hover]
      rw [this]
      exact List.mem_map.mpr ⟨(k, j), hm, rfl⟩
    · have hev1 : (evictIfNeeded maxItems m).1
          = m.filter (fun en =>
              !(((sortByCreatedAt m).take (max 1 (m.length - maxItems))).any
                (fun v => v.1 = en.1))) := by
        rw [evictIfNeeded, if_neg hover]
        exact foldl_mapDelete_eq_filter _ m
      have hev2 : (evictIfNeeded maxItems m).2
          = (((sortByCreatedAt m).take (max 1 (m.length - maxItems))).map
              (fun v => v.2.clients)).flatten := by
        rw [evictIfNeeded, if_neg hover]
      have hvict : ∃ v ∈ (sortByCreatedAt m).take
          (max 1 (m.length - maxItems)), v.1 = k := by
        by_contra hc
        push_neg at hc
        apply hk
        rw [hev1]
        refine List.mem_map.mpr ⟨(k, j), ?_, rfl⟩
        refine List.mem_filter.mpr ⟨hm, ?_⟩
        simp only [Bool.not_eq_true']
        refine List.any_eq_false.mpr ?_
        intro v hv
        simpa using hc v hv
      obtain ⟨v, hv, hvk⟩ := hvict
      have hvm : v ∈ m :=
        (sortByCreatedAt_perm m).mem_iff.mp (List.mem_of_mem_take hv)
      have hvj : v.2 = j := by
        refine nodupKeys_value_unique m hnd ?_ hm
        rw [← hvk]
        exact hvm
      intro cl hcl
      rw [hev2]
      refine List.mem_flatten.mpr ⟨v.2.clients, ?_, by rw [hvj]; exact hcl⟩
      exact List.mem_map.mpr ⟨v, hv, rfl⟩
  · intro m id now ttl j hj hexp
    refine ⟨?_, ?_, ?_⟩
    · simp [getJob, hj, hexp]
    · simp only [getJob, hj, if_pos hexp]
      simp [mapGet, mapDelete, List.find?_filter]
    · simp [getJob, hj, hexp]

/-- C2 witness: the sweep at time 1500 with TTL 1000 ends subscriber 7 of
the job created at time 0. -/
theorem c2_witness :
    7 ∈ (cleanupSweep storeWithClient 1500 1000).2 :=
  ((c2_removal_paths.1 storeWithClient 1500 1000 "a" jobWithClient
    (by decide) (by decide)).2) 7 (by decide)

/-- C2 counterexample: looking up the same expired job deletes it from the
store while its subscriber 7 is still connected, and ends no channel — the
lookup removal path leaks the open subscriber connection. -/
theorem c2_counterexample :
    (getJob storeWithClient "a" 1500 1000).1 = none
    ∧ mapGet (getJob storeWithClient "a" 1500 1000).2.1 "a" = none
    ∧ (getJob storeWithClient "a" 1500 1000).2.2 = []
    ∧ jobWithClient.clients = [7] := by
  decide

/-- Filtering a key-distinct concatenation by "key not among the first
part's keys" yields exactly the second part. -/
theorem filter_excluding_keys {β : Type} (vs rest : List (String × β))
    (hnd : ((vs ++ rest).map Prod.fst).Nodup) :
    (vs ++ rest).filter (fun en => !(vs.any (fun v => v.1 = en.1))) = rest := by
  rw [List.filter_append]
  have hdisj := (List.nodup_append.mp (by
    simpa [List.map_append] using hnd)).2.2
  have h1 : vs.filter (fun en => !(vs.any (fun v => v.1 = en.1))) = [] := by
    apply List.filter_eq_nil.mpr
    intro v hv
    simp only [Bool.not_eq_true', Bool.not_eq_false, List.any_eq_true,
      decide_eq_true_eq]
    exact ⟨v, hv, rfl⟩
  have h2 : rest.filter (fun en => !(vs.any (fun v => v.1 = en.1))) = rest := by
    apply List.filter_eq_self.mpr
    intro e he
    simp only [Bool.not_eq_true', List.any_eq_false, decide_eq_true_eq]
    intro v hv hveq
    exact hdisj (List.mem_map.mpr ⟨v, hv, rfl⟩)
      (List.mem_map.mpr ⟨e, he, hveq.symm⟩)
  rw [h1, h2, List.nil_append]

/-- C1 (amended): eviction runs at the start of `createJob`, before the new
job is inserted, and removes the oldest-created jobs only when the store
already holds strictly more than the capacity; consequently the store holds
at most capacity + 1 jobs after a creation (`min size capacity + 1`), the
new job is present, every evicted job is older than every surviving old job,
every evicted job's subscribers are disconnected, and a creation from a
store within capacity evicts nothing — so with capacity 2 the 3rd creation
evicts nothing and only the 4th evicts the oldest-created job. -/
theorem c1_create_eviction (maxItems : ℕ) (m : Store) (jobId : String)
    (now : ℕ) (opts : String)
    (hnd : (m.map Prod.fst).Nodup)
    (hid : jobId ∉ m.map Prod.fst) :
    (createJob maxItems m jobId now opts).1.length = min m.length maxItems + 1
    ∧ mapGet (createJob maxItems m jobId now opts).1 jobId
        = some (newJob now opts)
    ∧ (∀ k j, (k, j) ∈ m →
        k ∉ (createJob maxItems m jobId now opts).1.map Prod.fst →
        ∀ cl ∈ j.clients, cl ∈ (createJob maxItems m jobId now opts).2)
    ∧ (∀ k j k2 j2, (k, j) ∈ m →
        (k, j) ∈ (createJob maxItems m jobId now opts).1 →
        (k2, j2) ∈ m →
        k2 ∉ (createJob maxItems m jobId now opts).1.map Prod.fst →
        j2.createdAt ≤ j.createdAt)
    ∧ (m.length ≤ maxItems → (createJob maxItems m jobId now opts).2 = []) := by
  by_cases hover : m.length ≤ maxItems
  · have hres : createJob maxItems m jobId now opts
        = (m ++ [(jobId, newJob now opts)], []) := by
      show (mapSet (evictIfNeeded maxItems m).1 jobId (newJob now opts),
        (evictIfNeeded maxItems m).2) = _
      rw [evictIfNeeded, if_pos hover, mapSet_fresh m jobId _ hid]
    refine ⟨?_, ?_, ?_, ?_, ?_⟩
    · rw [hres]
      simp [Nat.min_eq_left hover]
    · rw [hres]
      exact mapGet_append_fresh m jobId _ hid
    · intro k j hm hk
      exfalso
      apply hk
      rw [hres]
      simp only [List.map_append]
      exact List.mem_append_left _ (List.mem_map.mpr ⟨(k, j), hm, rfl⟩)
    · intro k j k2 j2 _ _ hm2 hk2
      exfalso
      apply hk2
      rw [hres]
      simp only [List.map_append]
      exact List.mem_append_left _ (List.mem_map.mpr ⟨(k2, j2), hm2, rfl⟩)
    · intro _
      rw [hres]
  · -- over capacity: the oldest max(1, size - capacity) entries are removed
    have hperm_s := sortByCreatedAt_perm m
    have hpair := sortByCreatedAt_pairwise m
    have hnd_s : ((sortByCreatedAt m).map Prod.fst).Nodup :=
      (List.Perm.nodup_iff (hperm_s.map Prod.fst)).mpr hnd
    have hsplit := List.take_append_drop (max 1 (m.length - maxItems))
      (sortByCreatedAt m)
    have hnd_app : ((((sortByCreatedAt m).take
        (max 1 (m.length - maxItems)))
        ++ ((sortByCreatedAt m).drop (max 1 (m.length - maxItems)))).map
          Prod.fst).Nodup := by
      rw [hsplit]
      exact hnd_s
    have hev1 : (evictIfNeeded maxItems m).1
        = m.filter (fun en => !(((sortByCreatedAt m).take
            (max 1 (m.length - maxItems))).any (fun v => v.1 = en.1))) := by
      rw [evictIfNeeded, if_neg hover]
      exact foldl_mapDelete_eq_filter _ m
    have hev2 : (evictIfNeeded maxItems m).2
        = ((((sortByCreatedAt m).take (max 1 (m.length - maxItems))).map
            (fun v => v.2.clients)).flatten) := by
      rw [evictIfNeeded, if_neg hover]
    have hpermm : m.Perm (((sortByCreatedAt m).take
        (max 1 (m.length - maxItems)))
        ++ ((sortByCreatedAt m).drop (max 1 (m.length - maxItems)))) := by
      rw [hsplit]
      exact hperm_s.symm
    have hfilter : (evictIfNeeded maxItems m).1.Perm
        ((sortByCreatedAt m).drop (max 1 (m.length - maxItems))) := by
      rw [hev1]
      refine (List.Perm.filter _ hpermm).trans ?_
      rw [filter_excluding_keys _ _ hnd_app]
    have hkeys_sub : jobId ∉ (evictIfNeeded maxItems m).1.map Prod.fst := by
      intro hc
      obtain ⟨e, he, heq⟩ := List.mem_map.mp hc
      rw [hev1] at he
      exact hid (List.mem_map.mpr ⟨e, (List.mem_filter.mp he).1, heq⟩)
    have hres : createJob maxItems m jobId now opts
        = ((evictIfNeeded maxItems m).1 ++ [(jobId, newJob now opts)],
           (evictIfNeeded maxItems m).2) := by
      show (mapSet (evictIfNeeded maxItems m).1 jobId (newJob now opts),
        (evictIfNeeded maxItems m).2) = _
      rw [mapSet_fresh _ jobId _ hkeys_sub]
    have hlen_sorted : (sortByCreatedAt m).length = m.length :=
      hperm_s.length_eq
    -- membership characterizations of removal and survival
    have hremoved : ∀ k2 j2, (k2, j2) ∈ m →
        k2 ∉ (createJob maxItems m jobId now opts).1.map Prod.fst →
        (k2, j2) ∈ (sortByCreatedAt m).take (max 1 (m.length - maxItems)) := by
      intro k2 j2 hm2 hk2
      rw [hres] at hk2
      simp only [List.map_append, List.mem_append, not_or] at hk2
      have hfalse : ¬ ((fun en => !(((sortByCreatedAt m).take
          (max 1 (m.length - maxItems))).any (fun v => v.1 = en.1)))
            (k2, j2) = true) := by
        intro hP
        apply hk2.1
        refine List.mem_map.mpr ⟨(k2, j2), ?_, rfl⟩
        rw [hev1]
        exact List.mem_filter.mpr ⟨hm2, hP⟩
      simp only [Bool.not_eq_true', Bool.not_eq_false, List.any_eq_true,
        decide_eq_true_eq] at hfalse
      obtain ⟨v, hv, hvk⟩ := hfalse
      have hvm : v ∈ m :=
        hperm_s.mem_iff.mp (List.mem_of_mem_take hv)
      have hvj : v.2 = j2 := by
        refine nodupKeys_value_unique m hnd ?_ hm2
        rw [← hvk]
        exact hvm
      have hv2 : v = (k2, j2) := by
        obtain ⟨v1, vj⟩ := v
        simp only at hvk hvj
        rw [hvk, hvj]
      rw [← hv2]
      exact hv
    have hsurvive : ∀ k j, (k, j) ∈ m →
        (k, j) ∈ (createJob maxItems m jobId now opts).1 →
        (k, j) ∈ (sortByCreatedAt m).drop (max 1 (m.length - maxItems)) := by
      intro k j hm1 hres1
      rw [hres] at hres1
      rcases List.mem_append.mp hres1 with hres1 | hres1
      · rw [hev1] at hres1
        have hP := (List.mem_filter.mp hres1).2
        have hms : (k, j) ∈ (((sortByCreatedAt m).take
            (max 1 (m.length - maxItems)))
            ++ ((sortByCreatedAt m).drop (max 1 (m.length - maxItems)))) :=
          hpermm.mem_iff.mp hm1
        rcases List.mem_append.mp hms with hms | hms
        · exfalso
          simp only [Bool.not_eq_true', List.any_eq_false,
            decide_eq_true_eq] at hP
          exact hP (k, j) hms rfl
        · exact hms
      · exfalso
        simp only [List.mem_singleton] at hres1
        have : k = jobId := ((Prod.mk.injEq _ _ _ _).mp hres1).1
        exact hid (this ▸ List.mem_map.mpr ⟨(k, j), hm1, rfl⟩)
    refine ⟨?_, ?_, ?_, ?_, ?_⟩
    · rw [hres]
      simp only [List.length_append, List.length_singleton]
      rw [hfilter.length_eq, List.length_drop, hlen_sorted]
      omega
    · rw [hres]
      exact mapGet_append_fresh _ jobId _ hkeys_sub
    · intro k j hm1 hk1 cl hcl
      have hvic := hremoved k j hm1 hk1
      rw [hres]
      show cl ∈ (evictIfNeeded maxItems m).2
      rw [hev2]
      refine List.mem_flatten.mpr ⟨j.clients, ?_, hcl⟩
      exact List.mem_map.mpr ⟨(k, j), hvic, rfl⟩
    · intro k j k2 j2 hm1 hin1 hm2 hk2
      have hvic := hremoved k2 j2 hm2 hk2
      have hsur := hsurvive k j hm1 hin1
      have hpairs : (((sortByCreatedAt m).take (max 1 (m.length - maxItems)))
          ++ ((sortByCreatedAt m).drop
            (max 1 (m.length - maxItems)))).Pairwise createdLE := by
        rw [hsplit]
        exact hpair
      exact (List.pairwise_append.mp hpairs).2.2 (k2, j2) hvic (k, j) hsur
    · intro hc
      exact absurd hc hover

/-- C1 counterexample: with capacity 2, a 3rd creation evicts nothing — the
store then holds 3 jobs, the oldest job "a" is still present, and no
subscriber channel was closed — contradicting the claim that the store never
exceeds the capacity after a creation. -/
theorem c1_counterexample :
    (createJob 2 storeTwo "c" 2 "o").1.length = 3
    ∧ 2 < (createJob 2 storeTwo "c" 2 "o").1.length
    ∧ mapGet (createJob 2 storeTwo "c" 2 "o").1 "a" = some (newJob 0 "o")
    ∧ (createJob 2 storeTwo "c" 2 "o").2 = [] := by
  decide

/-- C1 witness: creating a 4th job in a capacity-2 store of 3 jobs leaves
`min 3 2 + 1 = 3` jobs and closes the channel of subscriber 5 of the evicted
oldest job "a". -/
theorem c1_witness :
    (createJob 2 jobStoreABC "d" 9 "o").1.length = min jobStoreABC.length 2 + 1
    ∧ 5 ∈ (createJob 2 jobStoreABC "d" 9 "o").2 :=
  have h := c1_create_eviction 2 jobStoreABC "d" 9 "o" (by decide) (by decide)
  ⟨h.1, h.2.2.1 "a" { newJob 0 "o" with clients := [5] } (by decide)
    (by decide) 5 (by decide)⟩
